import Mathlib

/-!
Verification of the article collection-and-selection pipeline of an
AI-news digest agent. The pipeline (recency filter, keyword relevance
filter, per-source collection, URL/title deduplication, three-tier
cost-aware ranking, batch summarization, time-budgeted orchestration) is
embedded shallowly: external capabilities (timestamp parsing, feed
fetching, the text-generation call) are oracle parameters; machine state
(elapsed wall-clock time, executed phases) is passed explicitly.
-/

namespace NewsPipeline

/-- Configuration constants, from config.py. -/
def MAX_ARTICLES : Nat := 10

/-- Per-source article cap (config.ARTICLES_PER_SOURCE). -/
def ARTICLES_PER_SOURCE : Nat := 5

/-- Title-similarity threshold for duplicates (config.DEDUPLICATION_THRESHOLD). -/
def DEDUPLICATION_THRESHOLD : ℚ := mkRat 85 100

/-- config.SMART_RANKING_ENABLED. -/
def SMART_RANKING_ENABLED : Bool := true

/-- config.MAX_ARTICLE_AGE_DAYS. -/
def MAX_ARTICLE_AGE_DAYS : Int := 7

/-- config.MAX_EXECUTION_TIME_SECONDS. -/
def MAX_EXECUTION_TIME_SECONDS : Nat := 300

/-- config.MAX_FEEDS_TO_PROCESS. -/
def MAX_FEEDS_TO_PROCESS : Nat := 5

/-- One fetched news entry (the article dict built in fetch_news, plus the
optional ai_summary key added later by the summarizer). -/
structure Article where
  title : String
  description : String
  link : String
  published : String
  source : String
  fetched_at : String
  ai_summary : Option String := none
deriving DecidableEq, Repr

/-- Result of dateutil parsing a timestamp string: the timezone-naive
wall-clock instant (in seconds) plus an optional UTC offset (seconds).
`datetime.replace(tzinfo=None)` keeps the naive instant and drops the
offset, which is exactly dropping the second component here. -/
structure ParsedDate where
  naive : Int
  tz : Option Int
deriving DecidableEq, Repr

/-- Seconds per day; Python's timedelta.days is floor division of the
total signed duration by this. -/
def SECONDS_PER_DAY : Int := 86400

/-- NewsFetcherAgent._is_article_recent. The dateutil parser is the
oracle `parse` (none models the parser raising). Returns the boolean
verdict together with a flag recording whether the parse-failure
diagnostic was printed (the except branch's print). Python's
`age.days` is floor division of the signed duration by 86400, hence
Int.fdiv. -/
def is_article_recent (parse : String → Option ParsedDate) (now : Int)
    (max_age_days : Int) (published_date : String) : Bool × Bool :=
  if published_date = "" || published_date = "Unknown date" then
    (false, false)
  else
    match parse published_date with
    | some d =>
        let article_date := d.naive
        let age := now - article_date
        (decide (Int.fdiv age SECONDS_PER_DAY ≤ max_age_days), false)
    | none => (false, true)

/-- title_similarity inside _deduplicate_articles: the difflib
SequenceMatcher ratio is the oracle `ratio`; both inputs are
lowercased first. -/
def title_similarity (ratio : String → String → ℚ) (t1 t2 : String) : ℚ :=
  ratio t1.toLower t2.toLower

/-- One iteration of the _deduplicate_articles loop, acting on the state
(deduplicated, seen_urls). If the link was seen, the incoming article is
dropped. Otherwise the first kept article whose title similarity exceeds
the threshold decides: if the incoming description is strictly longer,
the kept article is removed and the incoming one appended (its link
recorded as seen); otherwise the incoming article is discarded. With no
similar kept article, the incoming article is appended and its link
recorded. -/
def dedupStep (ratio : String → String → ℚ) (threshold : ℚ)
    (st : List Article × List String) (article : Article) :
    List Article × List String :=
  let deduplicated := st.1
  let seen_urls := st.2
  let url := article.link
  let title := article.title
  if seen_urls.contains url then
    st
  else
    match deduplicated.find?
        (fun existing =>
          decide (threshold < title_similarity ratio title existing.title)) with
    | some existing =>
        if existing.description.length < article.description.length then
          (deduplicated.erase existing ++ [article], seen_urls ++ [url])
        else
          (deduplicated, seen_urls)
    | none => (deduplicated ++ [article], seen_urls ++ [url])

/-- The fold state of _deduplicate_articles after processing the input
list, starting from empty result and empty seen set. -/
def dedupFold (ratio : String → String → ℚ) (threshold : ℚ)
    (articles : List Article) : List Article × List String :=
  articles.foldl (dedupStep ratio threshold) ([], [])

/-- NewsFetcherAgent._deduplicate_articles: the deduplicated result
sequence. -/
def deduplicate_articles (ratio : String → String → ℚ) (threshold : ℚ)
    (articles : List Article) : List Article :=
  (dedupFold ratio threshold articles).1

/-- Key used by the Tier 1 recency sort: the lambda passed to sorted in
_rank_articles_efficiently. "Unknown date" maps to datetime.min (modelled
as 0, the minimum timestamp); any other string goes through the dateutil
parse oracle, none modelling a raise. -/
def tier1Key (parseTs : String → Option Nat) (a : Article) : Option Nat :=
  if a.published = "Unknown date" then some 0 else parseTs a.published

/-- Tier 1 key with the default that is only read when parsing is known
to succeed. -/
def tier1KeyD (parseTs : String → Option Nat) (a : Article) : Nat :=
  (tier1Key parseTs a).getD 0

/-- Python's str.split(sep) over the character list: every occurrence
of the separator starts a new piece; the empty string yields one empty
piece. -/
def pySplit (sep : Char) : List Char → List (List Char)
  | [] => [[]]
  | c :: rest =>
    match pySplit sep rest with
    | [] => [[]]
    | piece :: more =>
        if c = sep then [] :: piece :: more
        else (c :: piece) :: more

/-- Python's str.strip(): drop leading and trailing whitespace. -/
def pyStrip (cs : List Char) : List Char :=
  ((cs.dropWhile Char.isWhitespace).reverse.dropWhile Char.isWhitespace).reverse

/-- Python's int() applied to one comma-separated piece of the ranking
response (after strip): optional sign followed by a nonempty digit
string; anything else raises, i.e. none. -/
def pyInt (s : List Char) : Option Int :=
  let t := pyStrip s
  let signAndDigits : Int × List Char :=
    match t with
    | ('+' :: rest) => (1, rest)
    | ('-' :: rest) => (-1, rest)
    | _ => (1, t)
  if signAndDigits.2 ≠ [] ∧ signAndDigits.2.all Char.isDigit then
    some (signAndDigits.1 *
      (signAndDigits.2.foldl (fun n c => 10 * n + (c.toNat - '0'.toNat)) 0 : Nat))
  else
    none

/-- Parsing of the Tier 2 ranking response:
`[int(num.strip()) - 1 for num in response.split(",")]`.
none models int() raising on some piece (the except branch). -/
def parseIndices (response : String) : Option (List Int) :=
  (pySplit ',' response.toList).mapM (fun num => (pyInt num).map (· - 1))

/-- NewsFetcherAgent._rank_articles_efficiently.
Oracle parameters: `parseTs` is dateutil parsing of an article timestamp
for the Tier 1 sort (none = raise); `executeResp` is the outcome of the
self.execute ranking call in Tier 2 (none = raise, caught by the except).
Tier 0: input within limit, returned unchanged. Tier 1 (ranking disabled
or overage at most 50%): stable sort by timestamp descending (CPython
sorted precomputes every key, so one raising key aborts the sort and the
except returns the input-order prefix). Tier 2: parse the response into
zero-based indices, drop out-of-range ones, map to articles in response
order, truncate; any failure falls back to the input-order prefix. -/
def rank_articles_efficiently (smart_ranking : Bool)
    (parseTs : String → Option Nat) (executeResp : Option String)
    (articles : List Article) (target_count : Nat) : List Article :=
  if articles.length ≤ target_count then
    articles
  else if !smart_ranking || 2 * articles.length ≤ 3 * target_count then
    -- Tier 1: recency-based selection (cost-free)
    if articles.all (fun a => (tier1Key parseTs a).isSome) then
      (articles.mergeSort
        (fun a b => decide (tier1KeyD parseTs b ≤ tier1KeyD parseTs a))).take
        target_count
    else
      articles.take target_count
  else
    -- Tier 2: AI ranking with compact prompt
    match executeResp with
    | none => articles.take target_count
    | some response =>
        match parseIndices response with
        | none => articles.take target_count
        | some selected_indices =>
            let ranked_articles := selected_indices.filterMap
              (fun i => if 0 ≤ i then articles[i.toNat]? else none)
            ranked_articles.take target_count

/-- The fixed AI keyword vocabulary (NewsFetcherAgent.AI_KEYWORDS). -/
def AI_KEYWORDS : List String :=
  ["ai", "artificial intelligence", "machine learning", "ml", "deep learning",
   "neural network", "llm", "large language model", "gpt", "openai", "claude",
   "gemini", "chatbot", "generative ai", "gen ai", "transformer", "nlp",
   "natural language processing", "computer vision", "reinforcement learning",
   "ai model", "ai tool", "ai research", "ai ethics", "agi", "ai safety",
   "anthropic", "deepmind", "hugging face", "stable diffusion", "midjourney",
   "ai agent", "autonomous", "neural", "embeddings", "vector database",
   "ai startup", "ai investment", "ai regulation", "ai policy"]

/-- Substring containment over character lists (Python's `kw in text`). -/
def containsSub (needle : List Char) : List Char → Bool
  | [] => needle.isEmpty
  | c :: rest => needle.isPrefixOf (c :: rest) || containsSub needle rest

/-- NewsFetcherAgent._is_ai_related: some keyword occurs in the
lowercased "title description" concatenation. -/
def is_ai_related (a : Article) : Bool :=
  let combined_text := a.title.toLower ++ " " ++ a.description.toLower
  AI_KEYWORDS.any (fun keyword =>
    containsSub keyword.toList combined_text.toList)

/-- One raw feed entry as seen by fetch_news: every field read with
entry.get, so each is optional. -/
structure RawEntry where
  title : Option String
  summary : Option String
  description : Option String
  link : Option String
  published : Option String
  updated : Option String
deriving DecidableEq, Repr

/-- A successfully parsed feed: its display title (feed.feed.get) and
entries. The fetch oracle yields none when feedparser raises, the case
caught per-source by fetch_news. -/
structure FeedData where
  title : Option String
  entries : List RawEntry
deriving DecidableEq, Repr

/-- entry.get("published", entry.get("updated", "Unknown date")). -/
def entryPublished (e : RawEntry) : String :=
  (e.published.or e.updated).getD "Unknown date"

/-- The article dict built for one accepted entry in fetch_news. -/
def buildArticle (source_name now_iso : String) (published_date : String)
    (e : RawEntry) : Article :=
  { title := e.title.getD "No Title"
    description := (e.summary.or e.description).getD "No description available"
    link := e.link.getD ""
    published := published_date
    source := source_name
    fetched_at := now_iso }

/-- The inner entry loop of fetch_news for one feed, carrying
feed_articles_added: break once the per-source cap is reached; reject
stale entries, then construct the article and reject non-AI ones; accept
otherwise. `recent` is _is_article_recent applied to the config
defaults. -/
def collectEntries (recent : String → Bool) (source_name now_iso : String)
    (articles_per_source : Nat) :
    List RawEntry → Nat → List Article
  | [], _ => []
  | e :: rest, feed_articles_added =>
    if articles_per_source ≤ feed_articles_added then
      []
    else
      let published_date := entryPublished e
      if !recent published_date then
        collectEntries recent source_name now_iso articles_per_source rest
          feed_articles_added
      else
        let article := buildArticle source_name now_iso published_date e
        if !is_ai_related article then
          collectEntries recent source_name now_iso articles_per_source rest
            feed_articles_added
        else
          article :: collectEntries recent source_name now_iso
            articles_per_source rest (feed_articles_added + 1)

/-- The per-feed body of the fetch_news source loop: a fetch failure is
caught and contributes nothing; otherwise the entry loop runs with the
feed's display name (default "Unknown Source"). -/
def collectFromFeed (recent : String → Bool) (now_iso : String)
    (articles_per_source : Nat) (fetched : Option FeedData) : List Article :=
  match fetched with
  | none => []
  | some feed =>
      collectEntries recent (feed.title.getD "Unknown Source") now_iso
        articles_per_source feed.entries 0

/-- PHASE 1 of NewsFetcherAgent.fetch_news: the feeds list is truncated
to MAX_FEEDS_TO_PROCESS and each feed's accepted articles are
accumulated onto the shared list in feed order. -/
def fetch_news_collect (recent : String → Bool) (now_iso : String)
    (articles_per_source : Nat) (feeds : List (Option FeedData)) :
    List Article :=
  (feeds.take MAX_FEEDS_TO_PROCESS).foldl
    (fun articles feed_url =>
      articles ++ collectFromFeed recent now_iso articles_per_source feed_url)
    []

/-- SummarizerAgent.summarize_article: the generation call is the oracle
`execute` (none = the call raising, caught by the batch loop); on
success the article is returned enriched with the ai_summary field. -/
def summarize_article (execute : Article → Option String) (a : Article) :
    Option Article :=
  (execute a).map (fun summary => { a with ai_summary := some summary })

/-- SummarizerAgent.summarize_articles: each article is summarized in
turn; a raise in one article's summarization is caught and the original
article kept in place, and the loop continues. -/
def summarize_articles (execute : Article → Option String)
    (articles : List Article) : List Article :=
  articles.foldl
    (fun summarized_articles article =>
      match summarize_article execute article with
      | some summarized => summarized_articles ++ [summarized]
      | none => summarized_articles ++ [article])
    []

/-- The six workflow phases of NewsResearchOrchestrator.run. -/
inductive Phase where
  | collect
  | filterCriteria
  | summarizePhase
  | themes
  | compile
  | persist
deriving DecidableEq, Repr

/-- One run's environment: the wall-clock budget, the duration each
phase would take, whether fetch_news returns any articles, and whether
filter_criteria was supplied. Durations model the advance of
time.time() across each phase. -/
structure RunInput where
  budget : Nat
  dCollect : Nat
  dFilter : Nat
  dSummarize : Nat
  dThemes : Nat
  dCompile : Nat
  dPersist : Nat
  articlesNonEmpty : Bool
  hasCriteria : Bool
deriving DecidableEq, Repr

/-- Elapsed time once the Collect phase has run. -/
def elapsedAfterCollect (inp : RunInput) : Nat := inp.dCollect

/-- Elapsed time once the optional Filter phase has run (unchanged when
no criteria were supplied). -/
def elapsedAfterFilter (inp : RunInput) : Nat :=
  if inp.hasCriteria then inp.dCollect + inp.dFilter else inp.dCollect

/-- Elapsed time once the Summarize phase has run. -/
def elapsedAfterSummarize (inp : RunInput) : Nat :=
  elapsedAfterFilter inp + inp.dSummarize

/-- Elapsed time once the Identify-themes phase has run. -/
def elapsedAfterThemes (inp : RunInput) : Nat :=
  elapsedAfterSummarize inp + inp.dThemes

/-- NewsResearchOrchestrator.run as a straight-line state machine over
explicit elapsed time. Returns the final outcome (some () = a digest
path is returned, none = the run returns None) together with the list
of phases that executed. Each `budget < elapsed` test mirrors one
`elapsed_time > max_execution_time` check in the source, placed exactly
where the source places it: after Collect, inside the optional
criteria branch, before Summarize, before Identify-themes, and before
Compile — the source has no check between Compile and the Step 6 save.
-/
def orchestratorRun (inp : RunInput) : Option Unit × List Phase :=
  let e1 := elapsedAfterCollect inp
  if inp.budget < e1 then
    (none, [Phase.collect])
  else if inp.articlesNonEmpty = false then
    (none, [Phase.collect])
  else if inp.hasCriteria ∧ inp.budget < e1 then
    (none, [Phase.collect])
  else
    let e2 := elapsedAfterFilter inp
    let ps2 := if inp.hasCriteria then [Phase.collect, Phase.filterCriteria]
               else [Phase.collect]
    if inp.budget < e2 then
      (none, ps2)
    else
      let e3 := elapsedAfterSummarize inp
      let ps3 := ps2 ++ [Phase.summarizePhase]
      if inp.budget < e3 then
        (none, ps3)
      else
        let e4 := elapsedAfterThemes inp
        let ps4 := ps3 ++ [Phase.themes]
        if inp.budget < e4 then
          (none, ps4)
        else
          (some (), ps4 ++ [Phase.compile, Phase.persist])

/-- The loop invariant of _deduplicate_articles: every kept article's
link is recorded in seen_urls, and kept articles have pairwise distinct
links. -/
def DedupInv (st : List Article × List String) : Prop :=
  (∀ a ∈ st.1, a.link ∈ st.2) ∧ st.1.Pairwise (fun a b => a.link ≠ b.link)

/-- A degenerate similarity oracle that declares every pair of titles
identical; used to exercise the near-duplicate replacement path on
concrete inputs. -/
def ratioOne : String → String → ℚ := fun _ _ => 1

/-- Concrete sample: first near-duplicate article (short description). -/
def artA : Article :=
  { title := "GPT-5 Launches Today", description := "x",
    link := "https://a/1", published := "Unknown date",
    source := "s1", fetched_at := "t" }

/-- Concrete sample: near-duplicate of artA with a strictly longer
description and a different link; replaces artA. -/
def artB : Article :=
  { title := "GPT-5 launches today!!", description := "xx",
    link := "https://a/2", published := "Unknown date",
    source := "s2", fetched_at := "t" }

/-- Concrete sample: a later article reusing artA's link. -/
def artC : Article :=
  { title := "GPT-5 launches today!!!", description := "y",
    link := "https://a/1", published := "Unknown date",
    source := "s3", fetched_at := "t" }

/-- A date-parse oracle mapping every string to the epoch instant;
used for concrete recency evaluations. -/
def parseFixedEpoch : String → Option ParsedDate :=
  fun _ => some { naive := 0, tz := none }

/-- A date-parse oracle that always fails; used for concrete
fail-closed evaluations. -/
def parseAlwaysFails : String → Option ParsedDate := fun _ => none

/-- Concrete run environment in which the budget (10s) is exceeded
during the Compile phase (elapsed 17s when Persist starts). -/
def timeoutDuringCompileInput : RunInput :=
  { budget := 10, dCollect := 5, dFilter := 0, dSummarize := 1,
    dThemes := 1, dCompile := 10, dPersist := 0,
    articlesNonEmpty := true, hasCriteria := false }

/-- Concrete run environment from the spec scenario: budget 1 second,
Collect alone takes 2 seconds. -/
def timeoutAfterCollectInput : RunInput :=
  { budget := 1, dCollect := 2, dFilter := 0, dSummarize := 0,
    dThemes := 0, dCompile := 0, dPersist := 0,
    articlesNonEmpty := true, hasCriteria := false }

lemma dedupInv_append {d : List Article} {seen : List String} {article : Article}
    (hsub : ∀ a ∈ d, a.link ∈ seen)
    (hpw : d.Pairwise (fun a b => a.link ≠ b.link))
    (hfresh : article.link ∉ seen) :
    DedupInv (d ++ [article], seen ++ [article.link]) := by
  constructor
  · intro a ha
    rcases List.mem_append.mp ha with ha | ha
    · exact List.mem_append.mpr (Or.inl (hsub a ha))
    · simp only [List.mem_singleton] at ha
      subst ha
      exact List.mem_append.mpr (Or.inr (List.mem_singleton.mpr rfl))
  · refine List.pairwise_append.mpr ⟨hpw, List.pairwise_singleton _ _, ?_⟩
    intro a ha b hb
    simp only [List.mem_singleton] at hb
    subst hb
    intro hlink
    exact hfresh (hlink ▸ hsub a ha)

lemma dedupStep_inv (ratio : String → String → ℚ) (threshold : ℚ)
    (st : List Article × List String) (article : Article)
    (h : DedupInv st) : DedupInv (dedupStep ratio threshold st article) := by
  obtain ⟨hsub, hpw⟩ := h
  unfold dedupStep
  by_cases hseen : st.2.contains article.link = true
  · simp only [hseen, if_true]
    exact ⟨hsub, hpw⟩
  · have hfresh : article.link ∉ st.2 := fun hm => hseen (List.elem_iff.mpr hm)
    simp only [hseen, if_false, Bool.false_eq_true]
    cases hfind : st.1.find? (fun existing =>
        decide (threshold < title_similarity ratio article.title existing.title)) with
    | none =>
        simp only [hfind]
        exact dedupInv_append hsub hpw hfresh
    | some existing =>
        simp only [hfind]
        by_cases hlen : existing.description.length < article.description.length
        · simp only [hlen, if_true]
          have hsubl := List.erase_sublist existing st.1
          exact dedupInv_append
            (fun a ha => hsub a (hsubl.subset ha))
            (hpw.sublist hsubl) hfresh
        · simp only [hlen, if_false]
          exact ⟨hsub, hpw⟩

lemma dedupFold_inv_aux (ratio : String → String → ℚ) (threshold : ℚ)
    (articles : List Article) :
    ∀ st, DedupInv st → DedupInv (articles.foldl (dedupStep ratio threshold) st) := by
  induction articles with
  | nil => intro st h; exact h
  | cons a rest ih =>
      intro st h
      exact ih _ (dedupStep_inv ratio threshold st a h)

lemma dedupFold_inv (ratio : String → String → ℚ) (threshold : ℚ)
    (articles : List Article) : DedupInv (dedupFold ratio threshold articles) :=
  dedupFold_inv_aux ratio threshold articles ([], [])
    ⟨fun _ h => absurd h (List.not_mem_nil _), List.Pairwise.nil⟩

lemma countP_le_one_of_pairwise_ne {l : List Article} (url : String)
    (hpw : l.Pairwise (fun a b => a.link ≠ b.link)) :
    l.countP (fun a => a.link = url) ≤ 1 := by
  induction l with
  | nil => simp [List.countP_nil]
  | cons a rest ih =>
      rw [List.pairwise_cons] at hpw
      obtain ⟨hhead, htail⟩ := hpw
      by_cases ha : a.link = url
      · have hzero : rest.countP (fun b => decide (b.link = url)) = 0 := by
          rw [List.countP_eq_zero]
          intro b hb
          simp only [decide_eq_true_eq]
          intro hb'
          exact hhead b hb (by rw [ha, hb'])
        simp[List.countP_cons, ha, hzero]
      · simp [List.countP_cons, ha, ih htail]

/-- C1: the Deduplicator's output never contains two items with the same
link: the kept articles have pairwise distinct links, so for any link
value at most one output item carries it. -/
theorem dedup_output_links_unique (ratio : String → String → ℚ)
    (threshold : ℚ) (articles : List Article) :
    (deduplicate_articles ratio threshold articles).Pairwise
      (fun a b => a.link ≠ b.link) ∧
    ∀ url, (deduplicate_articles ratio threshold articles).countP
      (fun a => a.link = url) ≤ 1 := by
  have hpw := (dedupFold_inv ratio threshold articles).2
  exact ⟨hpw, fun url => countP_le_one_of_pairwise_ne url hpw⟩

/-- C10: throughout the Deduplicator's loop the seen-link set contains
the link of every currently kept article, and the containment can be
strict: on the concrete input artA, artB, artC (artB a near-duplicate of
artA with a longer description, artC reusing artA's link) the
replacement of artA by artB leaves artA's link in the seen set, so artC
is dropped at the exact-duplicate test even though no kept article
carries that link. -/
theorem dedup_seen_links_superset :
    (∀ (ratio : String → String → ℚ) (threshold : ℚ)
       (articles : List Article) (a : Article),
       a ∈ (dedupFold ratio threshold articles).1 →
       a.link ∈ (dedupFold ratio threshold articles).2) ∧
    (dedupFold ratioOne DEDUPLICATION_THRESHOLD [artA, artB] =
       ([artB], [artA.link, artB.link]) ∧
     artC.link = artA.link ∧
     (∀ a ∈ (dedupFold ratioOne DEDUPLICATION_THRESHOLD [artA, artB]).1,
        a.link ≠ artC.link) ∧
     dedupStep ratioOne DEDUPLICATION_THRESHOLD
       (dedupFold ratioOne DEDUPLICATION_THRESHOLD [artA, artB]) artC =
       dedupFold ratioOne DEDUPLICATION_THRESHOLD [artA, artB] ∧
     dedupFold ratioOne DEDUPLICATION_THRESHOLD [artA, artB, artC] =
       dedupFold ratioOne DEDUPLICATION_THRESHOLD [artA, artB]) := by
  constructor
  · intro ratio threshold articles a ha
    exact (dedupFold_inv ratio threshold articles).1 a ha
  · decide

lemma fdiv_day_le_iff (age max : Int) :
    Int.fdiv age SECONDS_PER_DAY ≤ max ↔ age < (max + 1) * SECONDS_PER_DAY := by
  unfold SECONDS_PER_DAY
  rw [Int.fdiv_eq_ediv _ (by norm_num)]
  omega

lemma is_article_recent_parseable_eq (parse : String → Option ParsedDate)
    (now max_age_days : Int) (published_date : String) (d : ParsedDate)
    (hne : published_date ≠ "") (hns : published_date ≠ "Unknown date")
    (hp : parse published_date = some d) :
    (is_article_recent parse now max_age_days published_date).1 =
      decide (Int.fdiv (now - d.naive) SECONDS_PER_DAY ≤ max_age_days) := by
  unfold is_article_recent
  simp [hne, hns, hp]

/-- C3 (amended): for a parseable timestamp the Recency Filter accepts
exactly when the stripped-offset age now - parsed is less than
max_age_days + 1 whole days, i.e. when the floor of the age in days is
at most max_age_days. Future-dated timestamps are accepted, and a
timestamp is rejected exactly when it is at least max_age_days + 1 full
days old — sub-day overshoots beyond max_age_days days are still
accepted because the comparison floors the age to whole days. -/
theorem is_article_recent_age_window (parse : String → Option ParsedDate)
    (now max_age_days : Int) (published_date : String) (d : ParsedDate)
    (hmax : 0 ≤ max_age_days)
    (hne : published_date ≠ "") (hns : published_date ≠ "Unknown date")
    (hp : parse published_date = some d) :
    ((is_article_recent parse now max_age_days published_date).1 = true ↔
      now - d.naive < (max_age_days + 1) * SECONDS_PER_DAY) ∧
    (now < d.naive →
      (is_article_recent parse now max_age_days published_date).1 = true) ∧
    ((max_age_days + 1) * SECONDS_PER_DAY ≤ now - d.naive →
      (is_article_recent parse now max_age_days published_date).1 = false) := by
  have hred := is_article_recent_parseable_eq parse now max_age_days
    published_date d hne hns hp
  refine ⟨?_, ?_, ?_⟩
  · rw [hred]
    simp only [decide_eq_true_eq]
    exact fdiv_day_le_iff _ _
  · intro hfut
    rw [hred]
    simp only [decide_eq_true_eq, fdiv_day_le_iff]
    unfold SECONDS_PER_DAY
    omega
  · intro hold
    rw [hred]
    simp only [decide_eq_false_iff_not, fdiv_day_le_iff]
    omega

/-- C3 witness: with max_age_days = 7, a timestamp exactly 3 days old is
accepted, a future-dated one is accepted, and one 8 full days old is
rejected. -/
theorem is_article_recent_age_window_witness :
    ((is_article_recent parseFixedEpoch (3 * 86400) 7 "x").1 = true ↔
      3 * 86400 - 0 < (7 + 1) * SECONDS_PER_DAY) ∧
    ((-5 : Int) < 0 → (is_article_recent parseFixedEpoch (-5) 7 "x").1 = true) ∧
    ((7 + 1) * SECONDS_PER_DAY ≤ 8 * 86400 - 0 →
      (is_article_recent parseFixedEpoch (8 * 86400) 7 "x").1 = false) :=
  ⟨((is_article_recent_age_window parseFixedEpoch (3 * 86400) 7 "x"
      { naive := 0, tz := none } (by norm_num) (by decide) (by decide) rfl).1.trans
      (by norm_num)),
   fun h => (is_article_recent_age_window parseFixedEpoch (-5) 7 "x"
      { naive := 0, tz := none } (by norm_num) (by decide) (by decide) rfl).2.1
      (by decide),
   fun h => (is_article_recent_age_window parseFixedEpoch (8 * 86400) 7 "x"
      { naive := 0, tz := none } (by norm_num) (by decide) (by decide) rfl).2.2
      (by norm_num [SECONDS_PER_DAY])⟩

/-- C3 counterexample: a parseable timestamp 7 days and one hour old —
strictly older than max_age_days = 7 days — is accepted, because the
code compares the floor of the age in whole days, not the exact age. -/
theorem is_article_recent_subday_counterexample :
    parseFixedEpoch "2026-01-01T00:00:00" = some { naive := 0, tz := none } ∧
    7 * SECONDS_PER_DAY < 608400 - 0 ∧
    (is_article_recent parseFixedEpoch 608400 7 "2026-01-01T00:00:00").1 =
      true := by
  decide

/-- C6: a missing (empty) or sentinel "Unknown date" timestamp is
rejected without reaching the parser, and an unparseable timestamp is
rejected with the parse failure reported (the second component records
the printed diagnostic). -/
theorem is_article_recent_fail_closed (parse : String → Option ParsedDate)
    (now max_age_days : Int) :
    is_article_recent parse now max_age_days "" = (false, false) ∧
    is_article_recent parse now max_age_days "Unknown date" = (false, false) ∧
    (∀ published_date, published_date ≠ "" →
      published_date ≠ "Unknown date" → parse published_date = none →
      is_article_recent parse now max_age_days published_date =
        (false, true)) := by
  refine ⟨rfl, rfl, ?_⟩
  intro pd hne hns hp
  unfold is_article_recent
  simp [hne, hns, hp]

/-- C6 witness: a concrete unparseable timestamp is rejected and
reported. -/
theorem is_article_recent_fail_closed_witness :
    is_article_recent parseAlwaysFails 0 7 "not a date" = (false, true) :=
  (is_article_recent_fail_closed parseAlwaysFails 0 7).2.2 "not a date"
    (by decide) (by decide) rfl

/-- C4: the Selector returns the input unchanged whenever it already
fits in target_count, and in every tier its output never exceeds
target_count items. -/
theorem rank_articles_cap (smart_ranking : Bool)
    (parseTs : String → Option Nat) (executeResp : Option String)
    (articles : List Article) (target_count : Nat) :
    (articles.length ≤ target_count →
      rank_articles_efficiently smart_ranking parseTs executeResp articles
        target_count = articles) ∧
    (rank_articles_efficiently smart_ranking parseTs executeResp articles
        target_count).length ≤ target_count := by
  unfold rank_articles_efficiently
  by_cases h0 : articles.length ≤ target_count
  · rw [if_pos h0]
    exact ⟨fun _ => rfl, h0⟩
  · rw [if_neg h0]
    refine ⟨fun hc => absurd hc h0, ?_⟩
    split
    · split
      · exact List.length_take_le _ _
      · exact List.length_take_le _ _
    · split
      · exact List.length_take_le _ _
      · split
        · exact List.length_take_le _ _
        · exact List.length_take_le _ _

/-- C4 witness: a one-element input with target 2 is returned unchanged
and within the cap. -/
theorem rank_articles_cap_witness :
    rank_articles_efficiently true (fun _ => none) none [artA] 2 = [artA] ∧
    (rank_articles_efficiently true (fun _ => none) none [artA] 2).length
      ≤ 2 :=
  ⟨(rank_articles_cap true (fun _ => none) none [artA] 2).1 (by decide),
   (rank_articles_cap true (fun _ => none) none [artA] 2).2⟩

/-- C5: in the Tier 2 branch (input above one and a half times the
target with smart ranking on), a raising ranking call or a response
that fails to parse as comma-separated integers both fall back to the
first target_count input items in input order; no exception escapes
since the embedding is total and every failure is mapped to this
fallback. -/
theorem rank_tier2_fallback (parseTs : String → Option Nat)
    (articles : List Article) (target_count : Nat)
    (h1 : target_count < articles.length)
    (h2 : 3 * target_count < 2 * articles.length) :
    rank_articles_efficiently true parseTs none articles target_count =
      articles.take target_count ∧
    ∀ response, parseIndices response = none →
      rank_articles_efficiently true parseTs (some response) articles
        target_count = articles.take target_count := by
  have h0 : ¬ articles.length ≤ target_count := by omega
  have hcond : ¬ (2 * articles.length ≤ 3 * target_count) := by omega
  unfold rank_articles_efficiently
  constructor
  · simp [h0, hcond]
  · intro response hresp
    simp [h0, hcond, hresp]

/-- C5 witness: a malformed (non-numeric) ranking response on a
two-article input with target 1 yields the first input item. -/
theorem rank_tier2_fallback_witness :
    parseIndices "a,b" = none ∧
    rank_articles_efficiently true (fun _ => none) (some "a,b")
      [artA, artB] 1 = [artA, artB].take 1 :=
  ⟨by decide,
   (rank_tier2_fallback (fun _ => none) [artA, artB] 1 (by decide)
     (by decide)).2 "a,b" (by decide)⟩

/-- C9: in the Tier 1 branch (ranking disabled or overage at most 50%),
the output has exactly target_count items drawn from the input, sorted
by the Tier 1 key — parsed timestamp, with "Unknown date" treated as
the minimum time 0 — in descending order whenever every key parses; if
any key fails to parse the branch falls back to truncating the input in
input order, and the function is total, so nothing is raised. -/
theorem rank_tier1_recency (smart_ranking : Bool)
    (parseTs : String → Option Nat) (executeResp : Option String)
    (articles : List Article) (target_count : Nat)
    (h1 : target_count < articles.length)
    (h2 : smart_ranking = false ∨ 2 * articles.length ≤ 3 * target_count) :
    (rank_articles_efficiently smart_ranking parseTs executeResp articles
        target_count).length = target_count ∧
    (∀ a ∈ rank_articles_efficiently smart_ranking parseTs executeResp
        articles target_count, a ∈ articles) ∧
    (articles.all (fun a => (tier1Key parseTs a).isSome) = true →
      (rank_articles_efficiently smart_ranking parseTs executeResp articles
        target_count).Pairwise
        (fun a b => tier1KeyD parseTs b ≤ tier1KeyD parseTs a)) ∧
    (articles.all (fun a => (tier1Key parseTs a).isSome) = false →
      rank_articles_efficiently smart_ranking parseTs executeResp articles
        target_count = articles.take target_count) := by
  have h0 : ¬ articles.length ≤ target_count := by omega
  have hcond : (!smart_ranking ||
      decide (2 * articles.length ≤ 3 * target_count)) = true := by
    rcases h2 with h | h <;> simp [h]
  have hsorted := @List.sorted_mergeSort Article
    (fun a b : Article =>
      decide (tier1KeyD parseTs b ≤ tier1KeyD parseTs a))
    (fun a b c hab hbc => by
      simp only [decide_eq_true_eq] at hab hbc ⊢
      exact le_trans hbc hab)
    (fun a b => by
      simp only [Bool.or_eq_true, decide_eq_true_eq]
      exact Nat.le_total _ _)
    articles
  by_cases hall : articles.all (fun a => (tier1Key parseTs a).isSome) = true
  · simp only [rank_articles_efficiently]
    rw [if_neg h0, if_pos hcond, if_pos hall]
    refine ⟨?_, ?_, fun _ => ?_, fun hfalse => ?_⟩
    · rw [List.length_take, List.length_mergeSort]
      omega
    · intro a ha
      have ham := (List.take_sublist _ _).mem ha
      exact (List.mergeSort_perm articles _).mem_iff.mp ham
    · refine List.Pairwise.sublist (List.take_sublist _ _) ?_
      exact hsorted.imp (fun h => by
        simpa only [decide_eq_true_eq] using h)
    · rw [hall] at hfalse
      exact absurd hfalse (by simp)
  · simp only [rank_articles_efficiently]
    rw [if_neg h0, if_pos hcond, if_neg hall]
    refine ⟨?_, ?_, fun htrue => absurd htrue hall, fun _ => rfl⟩
    · rw [List.length_take]
      omega
    · intro a ha
      exact (List.take_sublist _ _).mem ha

/-- C9 witness: with ranking disabled on a two-article input with
target 1, the output has one element drawn from the input, and it is
descending in the Tier 1 key. -/
theorem rank_tier1_recency_witness :
    (rank_articles_efficiently false (fun _ => some 5) none [artA, artB]
      1).length = 1 ∧
    (∀ a ∈ rank_articles_efficiently false (fun _ => some 5) none
      [artA, artB] 1, a ∈ [artA, artB]) ∧
    (rank_articles_efficiently false (fun _ => some 5) none [artA, artB]
      1).Pairwise
      (fun a b => tier1KeyD (fun _ => some 5) b ≤
                  tier1KeyD (fun _ => some 5) a) :=
  ⟨(rank_tier1_recency false (fun _ => some 5) none [artA, artB] 1
      (by decide) (Or.inl rfl)).1,
   (rank_tier1_recency false (fun _ => some 5) none [artA, artB] 1
      (by decide) (Or.inl rfl)).2.1,
   (rank_tier1_recency false (fun _ => some 5) none [artA, artB] 1
      (by decide) (Or.inl rfl)).2.2.1 (by decide)⟩

lemma foldl_append_eq_flatten {α β : Type} (f : α → List β) (l : List α)
    (init : List β) :
    l.foldl (fun acc x => acc ++ f x) init = init ++ (l.map f).flatten := by
  induction l generalizing init with
  | nil => simp
  | cons x rest ih => simp [ih, List.append_assoc]

lemma collectEntries_length_le (recent : String → Bool)
    (source_name now_iso : String) (cap : Nat) (entries : List RawEntry) :
    ∀ added,
      (collectEntries recent source_name now_iso cap entries added).length ≤
        cap - added := by
  induction entries with
  | nil => intro added; simp [collectEntries]
  | cons e rest ih =>
      intro added
      unfold collectEntries
      by_cases hcap : cap ≤ added
      · simp [hcap]
      · rw [if_neg hcap]
        simp only []
        split
        · exact le_trans (ih added) (Nat.le_refl _)
        · split
          · exact le_trans (ih added) (Nat.le_refl _)
          · simp only [List.length_cons]
            have := ih (added + 1)
            omega

/-- C7: the Collector's output is the concatenation, in feed order, of
the per-feed collections over the first MAX_FEEDS_TO_PROCESS sources,
and every per-feed collection — hence the number of output items
originating from any one source — has at most articles_per_source
items; the cap is applied independently inside each source's loop, not
as one global early exit. -/
theorem fetch_news_per_source_cap (recent : String → Bool) (now_iso : String)
    (articles_per_source : Nat) (feeds : List (Option FeedData)) :
    fetch_news_collect recent now_iso articles_per_source feeds =
      ((feeds.take MAX_FEEDS_TO_PROCESS).map
        (collectFromFeed recent now_iso articles_per_source)).flatten ∧
    ∀ fetched,
      (collectFromFeed recent now_iso articles_per_source fetched).length ≤
        articles_per_source := by
  constructor
  · unfold fetch_news_collect
    exact (foldl_append_eq_flatten
      (collectFromFeed recent now_iso articles_per_source)
      (feeds.take MAX_FEEDS_TO_PROCESS) []).trans (List.nil_append _)
  · intro fetched
    cases fetched with
    | none => simp [collectFromFeed]
    | some feed =>
        have h := collectEntries_length_le recent
          (feed.title.getD "Unknown Source") now_iso articles_per_source
          feed.entries 0
        simpa [collectFromFeed] using h

lemma summarize_articles_foldl (execute : Article → Option String)
    (articles : List Article) (init : List Article) :
    articles.foldl
      (fun summarized_articles article =>
        match summarize_article execute article with
        | some summarized => summarized_articles ++ [summarized]
        | none => summarized_articles ++ [article]) init =
    init ++ articles.map (fun article =>
      match summarize_article execute article with
      | some summarized => summarized
      | none => article) := by
  induction articles generalizing init with
  | nil => simp
  | cons a rest ih =>
      cases h : summarize_article execute a <;>
        simp [h, ih, List.append_assoc]

/-- C8: the summarization batch preserves length and order, each output
position holds either the corresponding input article enriched with the
ai_summary field (when its generation call succeeds) or that article
unchanged (when its call raises), and each position's outcome depends
only on its own article, so one failure never aborts the rest. -/
theorem summarize_articles_degrades_in_place
    (execute : Article → Option String) (articles : List Article) :
    (summarize_articles execute articles).length = articles.length ∧
    ∀ (i : Nat) (a : Article), articles[i]? = some a →
      ((∃ s, execute a = some s ∧
         (summarize_articles execute articles)[i]? =
           some { a with ai_summary := some s }) ∨
       (execute a = none ∧
         (summarize_articles execute articles)[i]? = some a)) := by
  have heq : summarize_articles execute articles =
      articles.map (fun article =>
        match summarize_article execute article with
        | some summarized => summarized
        | none => article) := by
    unfold summarize_articles
    simpa using summarize_articles_foldl execute articles []
  constructor
  · rw [heq, List.length_map]
  · intro i a ha
    rw [heq, List.getElem?_map, ha]
    cases hex : execute a with
    | some s =>
        left
        exact ⟨s, rfl, by simp [summarize_article, hex]⟩
    | none =>
        right
        exact ⟨rfl, by simp [summarize_article, hex]⟩

/-- C8 witness: with a generation call that always raises, a singleton
batch keeps its article unchanged at position 0. -/
theorem summarize_articles_degrades_in_place_witness :
    (∃ s, (fun _ : Article => (none : Option String)) artA = some s ∧
       (summarize_articles (fun _ => none) [artA])[0]? =
         some { artA with ai_summary := some s }) ∨
    ((fun _ : Article => (none : Option String)) artA = none ∧
       (summarize_articles (fun _ => none) [artA])[0]? = some artA) :=
  (summarize_articles_degrades_in_place (fun _ => none) [artA]).2 0 artA rfl

/-- C10 witness: on the concrete two-article input, the kept article
artB indeed has its link recorded in the seen set. -/
theorem dedup_seen_links_superset_witness :
    artB ∈ (dedupFold ratioOne DEDUPLICATION_THRESHOLD [artA, artB]).1 ∧
    artB.link ∈ (dedupFold ratioOne DEDUPLICATION_THRESHOLD [artA, artB]).2 :=
  ⟨by decide,
   dedup_seen_links_superset.1 ratioOne DEDUPLICATION_THRESHOLD [artA, artB]
     artB (by decide)⟩

/-- C2 (amended): the coordinator checks the elapsed-time budget after
Collect and before Summarize, Identify-themes and Compile (and inside
the optional Filter branch); whenever such a check trips, the run
returns the no-result signal with no later phase executed, and whenever
the run returns no result, nothing was compiled or persisted — a
partial digest is never emitted. There is, however, no check between
Compile and Persist, so Persist always follows a completed Compile. -/
theorem orchestrator_budget_gating (inp : RunInput) :
    ((orchestratorRun inp).1 = none →
      Phase.compile ∉ (orchestratorRun inp).2 ∧
      Phase.persist ∉ (orchestratorRun inp).2) ∧
    (Phase.persist ∈ (orchestratorRun inp).2 →
      (orchestratorRun inp).1 = some () ∧
      Phase.compile ∈ (orchestratorRun inp).2) ∧
    (inp.budget < elapsedAfterCollect inp →
      orchestratorRun inp = (none, [Phase.collect])) ∧
    (Phase.filterCriteria ∈ (orchestratorRun inp).2 →
      elapsedAfterCollect inp ≤ inp.budget) ∧
    (Phase.summarizePhase ∈ (orchestratorRun inp).2 →
      elapsedAfterFilter inp ≤ inp.budget) ∧
    (Phase.themes ∈ (orchestratorRun inp).2 →
      elapsedAfterSummarize inp ≤ inp.budget) ∧
    (Phase.compile ∈ (orchestratorRun inp).2 →
      elapsedAfterThemes inp ≤ inp.budget) := by
  unfold orchestratorRun elapsedAfterThemes elapsedAfterSummarize
    elapsedAfterFilter elapsedAfterCollect
  simp only []
  split_ifs <;> simp_all

/-- C2 witness (spec scenario): budget one second, Collect alone takes
two seconds — the run returns no result with only Collect executed. -/
theorem orchestrator_budget_gating_witness :
    orchestratorRun timeoutAfterCollectInput = (none, [Phase.collect]) :=
  (orchestrator_budget_gating timeoutAfterCollectInput).2.2.1 (by decide)

/-- C2 counterexample: in a run whose budget (10s) is exhausted during
Compile (elapsed 17s when Persist would start), the claimed
check-before-Persist does not exist — the digest is still persisted and
returned instead of the run aborting with no result. -/
theorem orchestrator_no_check_before_persist :
    timeoutDuringCompileInput.budget <
      elapsedAfterThemes timeoutDuringCompileInput +
        timeoutDuringCompileInput.dCompile ∧
    (orchestratorRun timeoutDuringCompileInput).1 = some () ∧
    Phase.persist ∈ (orchestratorRun timeoutDuringCompileInput).2 := by
  decide

end NewsPipeline
